import Mathlib

/-!
Shallow embedding of the Ghostline Signal core: the obfuscation codec
(`ghostline_signal/network/obfuscation.py`), the symmetric cipher wrapper and
length-hiding padding (`ghostline_signal/crypto/encryption.py`), the peer
transport framing (`ghostline_signal/network/p2p.py`), the rendezvous device
registry (`rendezvous_server.py`), and the peer table of the message store
(`ghostline_signal/storage/local_db.py`).

Bytes are modelled as `List Nat` (each element a byte value), timestamps as
`Int`, and Python exceptions as `Option`/`Except` results.  Randomness
(`os.urandom`, `random.randint`) is modelled by passing the random bytes or
sizes as explicit parameters, constrained in the theorems exactly as the
source draws them.
-/

namespace Ghostline

/-- Big-endian 4-byte encoding of a natural number, as produced by Python's
`struct.pack(0x3e ++ "I", n)` for `n < 2^32`. -/
def u32be (n : Nat) : List Nat :=
  [n / 2 ^ 24 % 256, n / 2 ^ 16 % 256, n / 2 ^ 8 % 256, n % 256]

/-- Big-endian 4-byte decoding, as computed by Python's `struct.unpack` on the
first four bytes of the list. -/
def readU32be (l : List Nat) : Nat :=
  2 ^ 24 * l.getD 0 0 + 2 ^ 16 * l.getD 1 0 + 2 ^ 8 * l.getD 2 0 + l.getD 3 0

/-- An authenticated cipher in the interface the source consumes from the
`cryptography` library (`AESGCM`): `encrypt key nonce plaintext` returns the
ciphertext with the 16-byte tag appended; `decrypt key nonce ciphertext`
returns `none` when authentication fails.  The library itself is outside the
repository, so it enters the model as an abstract structure. -/
structure AEAD where
  encrypt : List Nat → List Nat → List Nat → List Nat
  decrypt : List Nat → List Nat → List Nat → Option (List Nat)

/-- Error cases of `MessageEncryption.decrypt_message`: the explicit
`ValueError("Encrypted data too short")` and a failure raised by
`AESGCM.decrypt`. -/
inductive DecryptError
  | tooShort
  | authFailed
deriving DecidableEq

/-- `MessageEncryption.encrypt_message` (crypto/encryption.py:15-27): draws a
12-byte nonce (here the parameter `nonce`), encrypts with AES-256-GCM, and
returns `nonce ++ ciphertext` (ciphertext includes the auth tag). -/
def encrypt_message (A : AEAD) (plaintext session_key nonce : List Nat) : List Nat :=
  nonce ++ A.encrypt session_key nonce plaintext

/-- `MessageEncryption.decrypt_message` (crypto/encryption.py:29-44): rejects
inputs shorter than 13 bytes, otherwise splits off a 12-byte nonce and hands
the remainder to AES-256-GCM. -/
def decrypt_message (A : AEAD) (encrypted_data session_key : List Nat) :
    Except DecryptError (List Nat) :=
  if encrypted_data.length < 13 then .error .tooShort
  else
    match A.decrypt session_key (encrypted_data.take 12) (encrypted_data.drop 12) with
    | some plaintext => .ok plaintext
    | none => .error .authFailed

/-- `MessageEncryption.add_padding` (crypto/encryption.py:46-57): returns
`struct.pack(0x3e ++ "I", len) ++ data ++ bytes([padding_len]) * padding_len`.
`none` models the Python exceptions: `struct.pack` rejects a length of `2^32`
or more, and `bytes([padding_len])` raises `ValueError` when `padding_len`
exceeds 255 (which happens exactly when `len(data)` is a multiple of
`block_size`, since then `padding_len = block_size`). -/
def add_padding (data : List Nat) (block_size : Nat) : Option (List Nat) :=
  let current_len := data.length
  let target_len := (current_len / block_size + 1) * block_size
  let padding_len := target_len - current_len
  if current_len ≤ 2 ^ 32 - 1 ∧ padding_len ≤ 255 then
    some (u32be current_len ++ data ++ List.replicate padding_len padding_len)
  else none

/-- `MessageEncryption.remove_padding` (crypto/encryption.py:59-66). -/
def remove_padding (padded_data : List Nat) : Option (List Nat) :=
  if padded_data.length < 5 then none
  else some ((padded_data.drop 4).take (readU32be (padded_data.take 4)))

/-- The only error `TrafficObfuscator.unwrap_message` raises: the
`ValueError("Wrapped message too short")` for inputs under 21 bytes. -/
inductive UnwrapError
  | tooShort
deriving DecidableEq

/-- `TrafficObfuscator.wrap_message` (network/obfuscation.py:88-104): returns
`header ++ type ++ u32be len ++ message ++ footer`.  The 16 random header
bytes and the random footer (length drawn from 16..128) are parameters;
`none` models `struct.pack` overflow on messages of `2^32` bytes or more and
`bytes([message_type])` rejecting a type above 255. -/
def wrap_message (header footer message : List Nat) (message_type : Nat) :
    Option (List Nat) :=
  if message.length ≤ 2 ^ 32 - 1 ∧ message_type ≤ 255 then
    some (header ++ [message_type] ++ u32be message.length ++ message ++ footer)
  else none

/-- `TrafficObfuscator.unwrap_message` (network/obfuscation.py:106-122):
requires at least 21 bytes, reads the type byte at offset 16 and the
big-endian length at offsets 17..20, and returns the slice
`wrapped[21 : 21 + length]` (which, as a Python slice, truncates to the
available bytes). -/
def unwrap_message (wrapped : List Nat) : Except UnwrapError (Nat × List Nat) :=
  if wrapped.length < 21 then .error .tooShort
  else
    let message_type := wrapped.getD 16 0
    let message_length := readU32be ((wrapped.drop 17).take 4)
    .ok (message_type, (wrapped.drop 21).take message_length)

/-- The bytes `P2PNode.send_message` (network/p2p.py:197-216) writes to the
peer socket: exactly `wrap_message(message, message_type=0x01)`, with no
outer framing around it. -/
def send_message_frame (header footer message : List Nat) : Option (List Nat) :=
  wrap_message header footer message 1

/-- One pass of the message-extraction loop of `P2PNode._handle_peer`
(network/p2p.py:140-195) over the accumulated buffer: once at least 21 bytes
are buffered, `unwrap_message` is applied and
`consumed = 21 + len(msg_data) + (len(buffer) - 21 - len(msg_data))`, i.e.
the whole buffer, is dropped; on fewer than 21 bytes nothing happens.  The
first component is the `(msg_type, msg_data)` handed to the message callback,
the second the remaining buffer. -/
def handle_buffer_step (buffer : List Nat) : Option (Nat × List Nat) × List Nat :=
  if 21 ≤ buffer.length then
    match unwrap_message buffer with
    | .ok (msg_type, msg_data) => (some (msg_type, msg_data), [])
    | .error _ => (none, buffer)
  else (none, buffer)

/-- A connection address, the `{ip, port}` dictionaries the rendezvous server
passes through unchanged. -/
abbrev Addr := String × Nat

/-- An entry of `DeviceRegistry.devices` (rendezvous_server.py:56-63). -/
structure DeviceRecord where
  device_id : String
  public_addr : Addr
  local_addr : Option Addr
  last_seen : Int
  registered_at : Int
deriving DecidableEq

/-- The `{device_id, public_addr, local_addr}` dictionaries returned by
`lookup` and `add_connect_request`, and stored as `requester_info`. -/
structure DeviceInfo where
  device_id : String
  public_addr : Addr
  local_addr : Option Addr
deriving DecidableEq

/-- An entry of a pending-request list in `DeviceRegistry.connect_requests`
(rendezvous_server.py:141-149). -/
structure ConnectRequest where
  requester_id : String
  requester_info : DeviceInfo
  timestamp : Int
deriving DecidableEq

/-- Looking a key up in a Python dict modelled as an association list. -/
def lookupA {β : Type} : List (String × β) → String → Option β
  | [], _ => none
  | (k', v) :: t, k => if k' = k then some v else lookupA t k

/-- Assigning a key in a Python dict modelled as an association list:
replaces the entry if the key is present, appends it otherwise. -/
def setA {β : Type} : List (String × β) → String → β → List (String × β)
  | [], k, v => [(k, v)]
  | (k', v') :: t, k, v => if k' = k then (k, v) :: t else (k', v') :: setA t k v

/-- Deleting a key from a Python dict modelled as an association list. -/
def eraseA {β : Type} (l : List (String × β)) (k : String) : List (String × β) :=
  l.filter (fun kv => kv.1 ≠ k)

/-- The state of `DeviceRegistry` (rendezvous_server.py:30-51): the device
table, the per-target pending connect requests, and the two expiry windows
(`expiration_seconds`, default 300, and `request_expiration = 30`). -/
structure DeviceRegistry where
  devices : List (String × DeviceRecord)
  expiration_seconds : Int
  connect_requests : List (String × List ConnectRequest)
  request_expiration : Int
deriving DecidableEq

/-- The registry as constructed by `DeviceRegistry.__init__`. -/
def initRegistry (expiration_seconds : Int) : DeviceRegistry :=
  { devices := [], expiration_seconds := expiration_seconds,
    connect_requests := [], request_expiration := 30 }

/-- The `{device_id, public_addr, local_addr}` view of a stored record. -/
def infoOf (d : DeviceRecord) : DeviceInfo :=
  { device_id := d.device_id, public_addr := d.public_addr, local_addr := d.local_addr }

/-- `DeviceRegistry.register` (rendezvous_server.py:53-63): upserts the
record, setting `last_seen` to the current time and preserving
`registered_at` when the device was already present.  `now` stands for the
`time.time()` calls. -/
def register (reg : DeviceRegistry) (now : Int) (device_id : String)
    (public_addr : Addr) (local_addr : Option Addr) : DeviceRegistry :=
  let record : DeviceRecord :=
    { device_id := device_id, public_addr := public_addr, local_addr := local_addr,
      last_seen := now,
      registered_at := match lookupA reg.devices device_id with
        | some d => d.registered_at
        | none => now }
  { reg with devices := setA reg.devices device_id record }

/-- `DeviceRegistry.lookup` (rendezvous_server.py:65-80): returns the
device's info unless `now - last_seen` exceeds `expiration_seconds`, in which
case the entry is deleted and `None` returned. -/
def lookup (reg : DeviceRegistry) (now : Int) (device_id : String) :
    Option DeviceInfo × DeviceRegistry :=
  match lookupA reg.devices device_id with
  | some device =>
      if now - device.last_seen > reg.expiration_seconds then
        (none, { reg with devices := eraseA reg.devices device_id })
      else
        (some (infoOf device), reg)
  | none => (none, reg)

/-- `DeviceRegistry.heartbeat` (rendezvous_server.py:82-88). -/
def heartbeat (reg : DeviceRegistry) (now : Int) (device_id : String) :
    Bool × DeviceRegistry :=
  match lookupA reg.devices device_id with
  | some d =>
    (true, { reg with devices := setA reg.devices device_id ({ d with last_seen := now }) })
  | none => (false, reg)

/-- `DeviceRegistry.unregister` (rendezvous_server.py:90-96). -/
def unregister (reg : DeviceRegistry) (device_id : String) : Bool × DeviceRegistry :=
  match lookupA reg.devices device_id with
  | some _ => (true, { reg with devices := eraseA reg.devices device_id })
  | none => (false, reg)

/-- `DeviceRegistry.add_connect_request` (rendezvous_server.py:115-160):
requires the target to be present and non-expired and the requester to be
present (its expiry is not checked); then replaces any pending request from
the same requester by a fresh one timestamped `now` and returns the target's
address record. -/
def add_connect_request (reg : DeviceRegistry) (now : Int)
    (requester_id target_id : String) : Option DeviceInfo × DeviceRegistry :=
  match lookupA reg.devices target_id with
  | none => (none, reg)
  | some target_info =>
    if now - target_info.last_seen > reg.expiration_seconds then (none, reg)
    else
      match lookupA reg.devices requester_id with
      | none => (none, reg)
      | some requester_info =>
        let existing := (lookupA reg.connect_requests target_id).getD []
        let kept := existing.filter (fun r => r.requester_id ≠ requester_id)
        let request : ConnectRequest :=
          { requester_id := requester_id,
            requester_info :=
              { device_id := requester_id,
                public_addr := requester_info.public_addr,
                local_addr := requester_info.local_addr },
            timestamp := now }
        let target_view : DeviceInfo :=
          { device_id := target_id, public_addr := target_info.public_addr,
            local_addr := target_info.local_addr }
        let cr := setA reg.connect_requests target_id (kept ++ [request])
        (some target_view, { reg with connect_requests := cr })

/-- `DeviceRegistry.get_connect_requests` (rendezvous_server.py:162-180):
returns the target's pending requests with expired ones trimmed in place,
deleting the key when nothing is left. -/
def get_connect_requests (reg : DeviceRegistry) (now : Int) (device_id : String) :
    List ConnectRequest × DeviceRegistry :=
  let requests := (lookupA reg.connect_requests device_id).getD []
  let valid := requests.filter (fun r => now - r.timestamp < reg.request_expiration)
  if valid.isEmpty then
    (valid, { reg with connect_requests := eraseA reg.connect_requests device_id })
  else
    (valid, { reg with connect_requests := setA reg.connect_requests device_id valid })

/-- `DeviceRegistry.clear_connect_request` (rendezvous_server.py:182-195):
removes the requests of `requester_id` from the target's list, deleting the
key when the list becomes empty, and reports whether anything was removed. -/
def clear_connect_request (reg : DeviceRegistry) (target_id requester_id : String) :
    Bool × DeviceRegistry :=
  match lookupA reg.connect_requests target_id with
  | none => (false, reg)
  | some lst =>
    let kept := lst.filter (fun r => r.requester_id ≠ requester_id)
    (kept.length < lst.length,
     if kept.isEmpty then
       { reg with connect_requests := eraseA reg.connect_requests target_id }
     else
       { reg with connect_requests := setA reg.connect_requests target_id kept })

/-- One pass of `DeviceRegistry._cleanup_loop` (rendezvous_server.py:197-228):
drops expired devices, trims expired connect requests and removes emptied
request lists. -/
def cleanup (reg : DeviceRegistry) (now : Int) : DeviceRegistry :=
  { reg with
    devices := reg.devices.filter
      (fun kv => ¬ (now - kv.2.last_seen > reg.expiration_seconds)),
    connect_requests :=
      (reg.connect_requests.map
        (fun kv => (kv.1, kv.2.filter (fun r => now - r.timestamp < reg.request_expiration)))).filter
        (fun kv => ¬ kv.2.isEmpty) }

/-- The mutating operations of `DeviceRegistry`, each carrying the
`time.time()` value it observes. -/
inductive RegistryOp
  | register (now : Int) (device_id : String) (public_addr : Addr) (local_addr : Option Addr)
  | lookup (now : Int) (device_id : String)
  | heartbeat (now : Int) (device_id : String)
  | unregister (device_id : String)
  | addConnectRequest (now : Int) (requester_id target_id : String)
  | getConnectRequests (now : Int) (device_id : String)
  | clearConnectRequest (target_id requester_id : String)
  | cleanup (now : Int)

/-- The state reached by running one registry operation. -/
def applyOp (reg : DeviceRegistry) : RegistryOp → DeviceRegistry
  | .register now d pub loc => register reg now d pub loc
  | .lookup now d => (lookup reg now d).2
  | .heartbeat now d => (heartbeat reg now d).2
  | .unregister d => (unregister reg d).2
  | .addConnectRequest now rid tid => (add_connect_request reg now rid tid).2
  | .getConnectRequests now d => (get_connect_requests reg now d).2
  | .clearConnectRequest tid rid => (clear_connect_request reg tid rid).2
  | .cleanup now => cleanup reg now

/-- Registry states reachable from a fresh registry through its operations. -/
inductive Reachable : DeviceRegistry → Prop
  | start (expiration_seconds : Int) : Reachable (initRegistry expiration_seconds)
  | step {reg : DeviceRegistry} (op : RegistryOp) : Reachable reg → Reachable (applyOp reg op)

/-- A pending-request list mentions each requester at most once. -/
def requesterOnce (l : List ConnectRequest) : Prop :=
  l.Pairwise (fun a b => a.requester_id ≠ b.requester_id)

/-- Every stored pending-request list mentions each requester at most once. -/
def requestsDistinct (reg : DeviceRegistry) : Prop :=
  ∀ p ∈ reg.connect_requests, requesterOnce p.2

/-- A row of the `peers` table of the message store (local_db.py:46-55);
`peer_id` is the primary key of the table. -/
structure PeerRow where
  peer_id : String
  display_name : Option String
  public_key : List Nat
  first_seen : Int
  last_seen : Int
  trust_level : Int
deriving DecidableEq

/-- `MessageStore.add_peer` (storage/local_db.py:127-143): the
`INSERT OR REPLACE` keyed on `peer_id`, whose `COALESCE` subquery keeps the
stored `first_seen` when the row exists and uses the current time otherwise;
`last_seen` is always set to the current time. -/
def add_peer (peers : List (String × PeerRow)) (now : Int) (peer_id : String)
    (public_key : List Nat) (display_name : Option String) (trust_level : Int) :
    List (String × PeerRow) :=
  let first_seen := match lookupA peers peer_id with
    | some row => row.first_seen
    | none => now
  setA peers peer_id
    { peer_id := peer_id, display_name := display_name, public_key := public_key,
      first_seen := first_seen, last_seen := now, trust_level := trust_level }

/-- A device record whose `last_seen` lies beyond the default 300-second
expiry at time 1000, used to evaluate the registry theorems. -/
def rExpired : DeviceRecord :=
  { device_id := "r", public_addr := ("a", 1), local_addr := none,
    last_seen := 0, registered_at := 0 }

/-- A device record freshly seen at time 1000, used to evaluate the registry
theorems. -/
def tFresh : DeviceRecord :=
  { device_id := "t", public_addr := ("b", 2), local_addr := none,
    last_seen := 1000, registered_at := 0 }

/-- A concrete registry holding the expired requester `r` and the fresh
target `t`, used to evaluate the registry theorems. -/
def regRT : DeviceRegistry :=
  { devices := [("r", rExpired), ("t", tFresh)], expiration_seconds := 300,
    connect_requests := [], request_expiration := 30 }

/-- A concrete instance of the `AEAD` interface used to evaluate the theorems
on closed inputs: it appends a 16-byte tag of zeros and strips it again,
satisfying the round-trip and length contracts of `AESGCM`. -/
def padTagAEAD : AEAD where
  encrypt := fun _ _ plaintext => plaintext ++ List.replicate 16 0
  decrypt := fun _ _ ciphertext =>
    if 16 ≤ ciphertext.length then some (ciphertext.take (ciphertext.length - 16)) else none

/-! ### Association-list and byte-level lemmas -/

theorem lookupA_setA_self {β : Type} (l : List (String × β)) (k : String) (v : β) :
    lookupA (setA l k v) k = some v := by
  induction l with
  | nil => simp [setA, lookupA]
  | cons hd tl ih =>
    obtain ⟨k', v'⟩ := hd
    by_cases hk : k' = k
    · simp [setA, hk, lookupA]
    · simp [setA, hk, lookupA, ih]

theorem lookupA_setA_ne {β : Type} (l : List (String × β)) {k q : String} (v : β)
    (h : k ≠ q) : lookupA (setA l k v) q = lookupA l q := by
  induction l with
  | nil => simp [setA, lookupA, h]
  | cons hd tl ih =>
    obtain ⟨k', v'⟩ := hd
    by_cases hk : k' = k
    · subst hk
      simp [setA, lookupA, h]
    · by_cases hq : k' = q
      · subst hq
        simp [setA, hk, lookupA]
      · simp [setA, hk, lookupA, hq, ih]

theorem lookupA_eraseA_self {β : Type} (l : List (String × β)) (k : String) :
    lookupA (eraseA l k) k = none := by
  induction l with
  | nil => simp [eraseA, lookupA]
  | cons hd tl ih =>
    obtain ⟨k', v'⟩ := hd
    by_cases hk : k' = k
    · simpa [eraseA, hk] using ih
    · simpa [eraseA, lookupA, hk] using ih

theorem mem_setA {β : Type} {l : List (String × β)} {k : String} {v : β}
    {q : String × β} (h : q ∈ setA l k v) : q = (k, v) ∨ q ∈ l := by
  induction l with
  | nil => simpa [setA] using h
  | cons hd tl ih =>
    obtain ⟨k', v'⟩ := hd
    simp only [setA] at h
    by_cases hk : k' = k
    · rw [if_pos hk] at h
      rcases List.mem_cons.1 h with h | h
      · exact Or.inl h
      · exact Or.inr (List.mem_cons_of_mem _ h)
    · rw [if_neg hk] at h
      rcases List.mem_cons.1 h with h | h
      · exact Or.inr (by simp [h])
      · rcases ih h with h' | h'
        · exact Or.inl h'
        · exact Or.inr (List.mem_cons_of_mem _ h')

theorem lookupA_mem {β : Type} {l : List (String × β)} {k : String} {v : β}
    (h : lookupA l k = some v) : (k, v) ∈ l := by
  induction l with
  | nil => simp [lookupA] at h
  | cons hd tl ih =>
    obtain ⟨k', v'⟩ := hd
    simp only [lookupA] at h
    by_cases hk : k' = k
    · rw [if_pos hk] at h
      injection h with h
      subst hk
      subst h
      exact List.mem_cons_self _ _
    · rw [if_neg hk] at h
      exact List.mem_cons_of_mem _ (ih h)

theorem u32be_length (n : Nat) : (u32be n).length = 4 := by
  simp [u32be]

theorem readU32be_u32be {n : Nat} (h : n < 2 ^ 32) : readU32be (u32be n) = n := by
  simp only [u32be, readU32be, List.getD_cons_zero, List.getD_cons_succ]
  omega

theorem getD_append_at {l₁ l₂ : List Nat} {n : Nat} (h : l₁.length = n) :
    (l₁ ++ l₂).getD n 0 = l₂.getD 0 0 := by
  induction l₁ generalizing n with
  | nil =>
    subst h
    simp
  | cons hd tl ih =>
    subst h
    simpa using ih rfl

/-- Unwrapping any buffer that starts with a well-formed wrapped envelope
recovers the type byte and payload, whatever trails behind the payload. -/
theorem unwrap_message_of_shape (h : List Nat) (t : Nat) (m rest : List Nat)
    (hh : h.length = 16) (hm : m.length ≤ 2 ^ 32 - 1) :
    unwrap_message (h ++ [t] ++ u32be m.length ++ m ++ rest) = .ok (t, m) := by
  have hlen : (h ++ [t] ++ u32be m.length ++ m ++ rest).length =
      21 + m.length + rest.length := by
    simp [u32be_length, hh]
    omega
  have hnot : ¬ (h ++ [t] ++ u32be m.length ++ m ++ rest).length < 21 := by
    omega
  have hgetD : (h ++ [t] ++ u32be m.length ++ m ++ rest).getD 16 0 = t := by
    rw [List.append_assoc h [t], List.append_assoc h, List.append_assoc h,
      getD_append_at hh]
    simp [List.getD_cons_zero]
  have hdrop17 : (h ++ [t] ++ u32be m.length ++ m ++ rest).drop 17 =
      u32be m.length ++ (m ++ rest) := by
    have : h ++ [t] ++ u32be m.length ++ m ++ rest =
        (h ++ [t]) ++ (u32be m.length ++ (m ++ rest)) := by simp
    rw [this, List.drop_append_of_le_length (by simp [hh])]
    simp [hh]
  have hdrop21 : (h ++ [t] ++ u32be m.length ++ m ++ rest).drop 21 = m ++ rest := by
    have : h ++ [t] ++ u32be m.length ++ m ++ rest =
        ((h ++ [t]) ++ u32be m.length) ++ (m ++ rest) := by simp
    rw [this, List.drop_append_of_le_length (by simp [hh, u32be_length])]
    simp [hh, u32be_length]
  have hread : readU32be ((u32be m.length ++ (m ++ rest)).take 4) = m.length := by
    rw [List.take_append_of_le_length (by simp [u32be_length]),
      List.take_of_length_le (by simp [u32be_length])]
    exact readU32be_u32be (by omega)
  rw [unwrap_message, if_neg hnot]
  simp only [hgetD, hdrop17, hdrop21, hread]
  rw [List.take_append_of_le_length le_rfl, List.take_length]

/-- When the input length is a multiple of the 256-byte block, the computed
padding count is 256, which `bytes([padding_len])` rejects. -/
theorem add_padding_aligned_none {data : List Nat} (h : data.length % 256 = 0) :
    add_padding data 256 = none := by
  rw [add_padding, if_neg]
  rintro ⟨-, hp⟩
  omega

/-! ### Claim theorems: cipher and padding -/

/-- C5: for every 32-byte key, 12-byte nonce and plaintext of at most
`2^32 - 1` bytes, `decrypt_message` inverts `encrypt_message`, given that the
underlying AES-GCM implementation round-trips and appends a 16-byte tag. -/
theorem c5_encrypt_decrypt_roundtrip (A : AEAD) (plaintext session_key nonce : List Nat)
    (hkey : session_key.length = 32)
    (hnonce : nonce.length = 12)
    (hclen : (A.encrypt session_key nonce plaintext).length = plaintext.length + 16)
    (hdec : A.decrypt session_key nonce (A.encrypt session_key nonce plaintext) = some plaintext)
    (hplen : plaintext.length ≤ 2 ^ 32 - 1) :
    decrypt_message A (encrypt_message A plaintext session_key nonce) session_key =
      .ok plaintext := by
  have hlen : (encrypt_message A plaintext session_key nonce).length =
      12 + (plaintext.length + 16) := by
    simp [encrypt_message, hnonce, hclen]
  have htake : (encrypt_message A plaintext session_key nonce).take 12 = nonce := by
    rw [encrypt_message, ← hnonce, List.take_left]
  have hdrop : (encrypt_message A plaintext session_key nonce).drop 12 =
      A.encrypt session_key nonce plaintext := by
    rw [encrypt_message, ← hnonce, List.drop_left]
  rw [decrypt_message, if_neg (by omega), htake, hdrop, hdec]

/-- Witness for C5 at a concrete cipher, key, nonce and plaintext. -/
theorem c5_witness :
    decrypt_message padTagAEAD
      (encrypt_message padTagAEAD [1, 2, 3] (List.replicate 32 0) (List.replicate 12 0))
      (List.replicate 32 0) = .ok [1, 2, 3] :=
  c5_encrypt_decrypt_roundtrip padTagAEAD [1, 2, 3] (List.replicate 32 0)
    (List.replicate 12 0) rfl rfl rfl rfl (by norm_num)

/-- C6: `unwrap_message` inverts `wrap_message` for every payload of at most
`2^32 - 1` bytes and every type byte, whatever 16-byte random header and
random footer of 16 to 128 bytes `wrap_message` drew. -/
theorem c6_wrap_unwrap_roundtrip (header footer message : List Nat) (message_type : Nat)
    (hh : header.length = 16) (hf1 : 16 ≤ footer.length) (hf2 : footer.length ≤ 128)
    (hm : message.length ≤ 2 ^ 32 - 1) (ht : message_type ≤ 255) :
    ∃ w, wrap_message header footer message message_type = some w ∧
      unwrap_message w = .ok (message_type, message) := by
  refine ⟨_, ?_, unwrap_message_of_shape header message_type message footer hh hm⟩
  rw [wrap_message, if_pos ⟨hm, ht⟩]

/-- Witness for C6 at a concrete header, footer, payload and type byte. -/
theorem c6_witness :
    ∃ w, wrap_message (List.replicate 16 9) (List.replicate 16 8) [1, 2, 3] 7 = some w ∧
      unwrap_message w = .ok (7, [1, 2, 3]) :=
  c6_wrap_unwrap_roundtrip (List.replicate 16 9) (List.replicate 16 8) [1, 2, 3] 7
    rfl (by norm_num) (by norm_num) (by norm_num) (by norm_num)

/-- C10: `decrypt_message` rejects every input shorter than 13 bytes with the
too-short error, independently of the key and before consulting AES-GCM;
every input of at least 13 bytes is split into its 12-byte head as nonce and
the remainder as ciphertext, and the result is exactly what AES-GCM decides
on that split. -/
theorem c10_decrypt_split (A : AEAD) (encrypted_data session_key : List Nat) :
    (encrypted_data.length < 13 →
      decrypt_message A encrypted_data session_key = .error .tooShort) ∧
    (13 ≤ encrypted_data.length →
      (encrypted_data.take 12).length = 12 ∧
      encrypted_data.take 12 ++ encrypted_data.drop 12 = encrypted_data ∧
      decrypt_message A encrypted_data session_key =
        match A.decrypt session_key (encrypted_data.take 12) (encrypted_data.drop 12) with
        | some plaintext => .ok plaintext
        | none => .error .authFailed) := by
  constructor
  · intro h
    simp [decrypt_message, h]
  · intro h
    refine ⟨by rw [List.length_take]; omega, List.take_append_drop _ _, ?_⟩
    rw [decrypt_message, if_neg (by omega)]

/-- Witness for C10 on a 5-byte and a 14-byte input. -/
theorem c10_witness :
    decrypt_message padTagAEAD [0, 1, 2, 3, 4] [] = .error .tooShort ∧
    (( [0, 1, 2, 3, 4, 5, 6, 7, 8, 9, 10, 11, 12, 13] : List Nat).take 12).length = 12 ∧
    ([0, 1, 2, 3, 4, 5, 6, 7, 8, 9, 10, 11, 12, 13] : List Nat).take 12 ++
      ([0, 1, 2, 3, 4, 5, 6, 7, 8, 9, 10, 11, 12, 13] : List Nat).drop 12 =
      [0, 1, 2, 3, 4, 5, 6, 7, 8, 9, 10, 11, 12, 13] ∧
    decrypt_message padTagAEAD [0, 1, 2, 3, 4, 5, 6, 7, 8, 9, 10, 11, 12, 13] [] =
      match padTagAEAD.decrypt []
        (([0, 1, 2, 3, 4, 5, 6, 7, 8, 9, 10, 11, 12, 13] : List Nat).take 12)
        (([0, 1, 2, 3, 4, 5, 6, 7, 8, 9, 10, 11, 12, 13] : List Nat).drop 12) with
      | some plaintext => .ok plaintext
      | none => .error .authFailed :=
  ⟨(c10_decrypt_split padTagAEAD [0, 1, 2, 3, 4] []).1 (by norm_num),
   (c10_decrypt_split padTagAEAD [0, 1, 2, 3, 4, 5, 6, 7, 8, 9, 10, 11, 12, 13] []).2
     (by norm_num)⟩

/-- C2 counterexample: `add_padding` with block size 256 crashes on the empty
input and on 256 aligned bytes (the padding count 256 does not fit in a
byte), and on a 1-byte input it returns 260 bytes, which is not a multiple of
256 — against the claimed lengths 256, 512 and divisibility by 256. -/
theorem c2_pad_length_cex :
    add_padding [] 256 = none ∧
    add_padding (List.replicate 256 65) 256 = none ∧
    ∃ l, add_padding [65] 256 = some l ∧ l.length = 260 ∧ ¬ l.length % 256 = 0 := by
  refine ⟨rfl, add_padding_aligned_none (by rw [List.length_replicate]), ?_⟩
  refine ⟨u32be 1 ++ [65] ++ List.replicate 255 255, rfl, ?_, ?_⟩
  · rw [List.length_append, List.length_append, u32be_length, List.length_replicate,
      List.length_singleton]
  · rw [List.length_append, List.length_append, u32be_length, List.length_replicate]
    norm_num

/-- C2 amended: when the input length is not a multiple of 256 (and fits the
4-byte length prefix), padding succeeds and the result has length
`4 + 256·(⌊n/256⌋ + 1)` — strictly longer than the input but congruent to 4,
not 0, modulo 256; when the input length is a multiple of 256 (such as the
empty string or 256 bytes), `add_padding` raises instead of returning. -/
theorem c2_pad_length (data : List Nat) :
    (¬ data.length % 256 = 0 → data.length ≤ 2 ^ 32 - 1 →
      ∃ l, add_padding data 256 = some l ∧
        l.length = 4 + (data.length / 256 + 1) * 256 ∧
        l.length % 256 = 4 ∧ data.length < l.length) ∧
    (data.length % 256 = 0 → add_padding data 256 = none) := by
  constructor
  · intro h1 h2
    have hp : (data.length / 256 + 1) * 256 - data.length ≤ 255 := by omega
    rw [add_padding]
    rw [if_pos ⟨h2, hp⟩]
    refine ⟨_, rfl, ?_, ?_, ?_⟩
    · simp [u32be_length]
      omega
    · simp [u32be_length]
      omega
    · simp [u32be_length]
      omega
  · intro h
    exact add_padding_aligned_none h

/-- Witness for the amended C2 on a 1-byte and an empty input. -/
theorem c2_witness :
    (∃ l, add_padding [65] 256 = some l ∧
      l.length = 4 + (([65] : List Nat).length / 256 + 1) * 256 ∧
      l.length % 256 = 4 ∧ ([65] : List Nat).length < l.length) ∧
    add_padding [] 256 = none :=
  ⟨(c2_pad_length [65]).1 (by norm_num) (by norm_num),
   (c2_pad_length []).2 (by norm_num)⟩

/-! ### Claim theorems: obfuscation errors and transport framing -/

/-- C3 counterexample: a 21-byte input whose length field reads 5 although no
payload bytes remain is unwrapped successfully (to an empty, truncated
message) instead of failing with a bad-length error. -/
theorem c3_badlength_cex :
    (List.replicate 17 0 ++ [0, 0, 0, 5] : List Nat).length = 21 ∧
    readU32be (((List.replicate 17 0 ++ [0, 0, 0, 5] : List Nat).drop 17).take 4) = 5 ∧
    unwrap_message (List.replicate 17 0 ++ [0, 0, 0, 5]) = .ok (0, []) :=
  ⟨rfl, rfl, rfl⟩

/-- C3 amended: `unwrap_message` fails with the too-short error on every
input under 21 bytes; on inputs of at least 21 bytes it never fails — even
when the length field at offset 17 exceeds the remaining bytes, it returns
the type byte at offset 16 and the slice after offset 21 truncated to the
available bytes. -/
theorem c3_unwrap_errors (wrapped : List Nat) :
    (wrapped.length < 21 → unwrap_message wrapped = .error .tooShort) ∧
    (21 ≤ wrapped.length →
      ∃ t m, unwrap_message wrapped = .ok (t, m) ∧
        t = wrapped.getD 16 0 ∧
        m = (wrapped.drop 21).take (readU32be ((wrapped.drop 17).take 4)) ∧
        m.length ≤ wrapped.length - 21) := by
  constructor
  · intro h
    simp [unwrap_message, h]
  · intro h
    refine ⟨_, _, ?_, rfl, rfl, ?_⟩
    · rw [unwrap_message, if_neg (by omega)]
    · rw [List.length_take, List.length_drop]
      omega

/-- Witness for the amended C3 on a 20-byte and a 21-byte input. -/
theorem c3_witness :
    unwrap_message (List.replicate 20 0) = .error .tooShort ∧
    (∃ t m, unwrap_message (List.replicate 17 0 ++ [0, 0, 0, 9]) = .ok (t, m) ∧
      t = (List.replicate 17 0 ++ [0, 0, 0, 9] : List Nat).getD 16 0 ∧
      m = ((List.replicate 17 0 ++ [0, 0, 0, 9] : List Nat).drop 21).take
        (readU32be (((List.replicate 17 0 ++ [0, 0, 0, 9] : List Nat).drop 17).take 4)) ∧
      m.length ≤ (List.replicate 17 0 ++ [0, 0, 0, 9] : List Nat).length - 21) :=
  ⟨(c3_unwrap_errors (List.replicate 20 0)).1 (by norm_num),
   (c3_unwrap_errors (List.replicate 17 0 ++ [0, 0, 0, 9])).2 (by norm_num)⟩

/-- C1 counterexample: the bytes `send_message` hands to the socket for an
empty payload (with concrete header and footer randomness) do not start with
a 4-byte big-endian encoding of the number of bytes that follow — the frame
has no outer length prefix, its first four bytes are header randomness. -/
theorem c1_no_outer_length_cex :
    ∃ w, send_message_frame (List.replicate 16 0) (List.replicate 16 0) [] = some w ∧
      w.length = 37 ∧ w.take 4 ≠ u32be (w.length - 4) := by
  refine ⟨_, rfl, rfl, by decide⟩

/-- C1 amended: `send_message` writes the wrapped envelope itself — 16-byte
random header, type byte `0x01`, 4-byte big-endian payload length, payload,
random footer — with no outer length-prefixed frame around it; and the
reader does not delimit frames by a length prefix: once at least 21 bytes
are buffered it unwraps one message and then discards the entire buffer, so
a second frame sitting in the same buffer is lost. -/
theorem c1_no_outer_frame (h1 f1 m1 h2 f2 m2 w1 w2 : List Nat)
    (hh1 : h1.length = 16) (hm1 : m1.length ≤ 2 ^ 32 - 1)
    (hw1 : send_message_frame h1 f1 m1 = some w1)
    (hw2 : send_message_frame h2 f2 m2 = some w2) :
    w1 = h1 ++ [1] ++ u32be m1.length ++ m1 ++ f1 ∧
    handle_buffer_step (w1 ++ w2) = (some (1, m1), []) := by
  have hw1' : w1 = h1 ++ [1] ++ u32be m1.length ++ m1 ++ f1 := by
    rw [send_message_frame, wrap_message, if_pos ⟨hm1, by norm_num⟩] at hw1
    exact (Option.some.inj hw1).symm
  refine ⟨hw1', ?_⟩
  have hshape : w1 ++ w2 = h1 ++ [1] ++ u32be m1.length ++ m1 ++ (f1 ++ w2) := by
    rw [hw1']
    simp [List.append_assoc]
  have hlen : 21 ≤ (w1 ++ w2).length := by
    rw [hshape]
    simp [hh1, u32be_length]
    omega
  rw [handle_buffer_step, if_pos hlen, hshape,
    unwrap_message_of_shape _ _ _ _ hh1 hm1]

/-- Witness for the amended C1: two concrete frames are sent back to back;
the reader extracts the first payload and drops the second frame whole. -/
theorem c1_witness :
    (List.replicate 16 4 ++ [1] ++ u32be 2 ++ [5, 6] ++ List.replicate 17 3 :
        List Nat).length = 40 ∧
    handle_buffer_step
      ((List.replicate 16 4 ++ [1] ++ u32be 2 ++ [5, 6] ++ List.replicate 17 3) ++
        (List.replicate 16 2 ++ [1] ++ u32be 1 ++ [9] ++ List.replicate 16 1)) =
      (some (1, [5, 6]), []) := by
  refine ⟨rfl, ?_⟩
  have h := (c1_no_outer_frame (List.replicate 16 4) (List.replicate 17 3) [5, 6]
    (List.replicate 16 2) (List.replicate 16 1) [9] _ _ rfl (by norm_num) rfl rfl).2
  exact h

/-! ### Claim theorems: rendezvous registry and peer table -/

/-- C4 counterexample: in a registry where the requester is registered but
expired (last seen at 0, queried at 1000, expiry 300) and the target is
fresh, `add_connect_request` still returns the target's address record
instead of the claimed not-found. -/
theorem c4_requester_expiry_cex :
    lookupA regRT.devices "r" = some rExpired ∧
    (1000 : Int) - rExpired.last_seen > regRT.expiration_seconds ∧
    (1000 : Int) - tFresh.last_seen ≤ regRT.expiration_seconds ∧
    (add_connect_request regRT 1000 "r" "t").1 =
      some { device_id := "t", public_addr := ("b", 2), local_addr := none } := by
  refine ⟨rfl, ?_, ?_, rfl⟩
  · norm_num [rExpired, regRT]
  · norm_num [tFresh, regRT]

/-- C4 amended: `add_connect_request` returns not-found whenever the target
is unregistered or expired or the requester is unregistered; the requester's
own expiry is never checked — when the target is registered and fresh and
the requester is merely present (possibly expired), the request is appended
and the target's address record returned. -/
theorem c4_connect_request_not_found (reg : DeviceRegistry) (now : Int)
    (requester_id target_id : String) :
    (lookupA reg.devices target_id = none →
      add_connect_request reg now requester_id target_id = (none, reg)) ∧
    (∀ t, lookupA reg.devices target_id = some t →
      now - t.last_seen > reg.expiration_seconds →
      add_connect_request reg now requester_id target_id = (none, reg)) ∧
    (lookupA reg.devices requester_id = none →
      add_connect_request reg now requester_id target_id = (none, reg)) ∧
    (∀ t r, lookupA reg.devices target_id = some t →
      ¬ now - t.last_seen > reg.expiration_seconds →
      lookupA reg.devices requester_id = some r →
      (add_connect_request reg now requester_id target_id).1 =
        some { device_id := target_id, public_addr := t.public_addr,
               local_addr := t.local_addr } ∧
      lookupA (add_connect_request reg now requester_id target_id).2.connect_requests
          target_id =
        some ((((lookupA reg.connect_requests target_id).getD []).filter
            (fun x => x.requester_id ≠ requester_id)) ++
          [{ requester_id := requester_id,
             requester_info := { device_id := requester_id,
                                 public_addr := r.public_addr,
                                 local_addr := r.local_addr },
             timestamp := now }])) := by
  refine ⟨?_, ?_, ?_, ?_⟩
  · intro h
    simp [add_connect_request, h]
  · intro t ht hexp
    simp [add_connect_request, ht, hexp]
  · intro h
    simp only [add_connect_request, h]
    rcases hfind : lookupA reg.devices target_id with _ | t
    · rfl
    · by_cases hexp : now - t.last_seen > reg.expiration_seconds
      · simp [hexp]
      · simp [hexp]
  · intro t r ht hexp hr
    simp only [add_connect_request, ht, hexp, hr, if_neg hexp]
    exact ⟨rfl, lookupA_setA_self _ _ _⟩

/-- Witness for the amended C4: the record of the fresh target is returned
and the request stored even though the requester is expired; with the
requester removed, the same call is not-found. -/
theorem c4_witness :
    ((add_connect_request regRT 1000 "r" "t").1 =
      some { device_id := "t", public_addr := tFresh.public_addr,
             local_addr := tFresh.local_addr } ∧
     lookupA (add_connect_request regRT 1000 "r" "t").2.connect_requests "t" =
       some ((((lookupA regRT.connect_requests "t").getD []).filter
           (fun x => x.requester_id ≠ "r")) ++
         [{ requester_id := "r",
            requester_info := { device_id := "r",
                                public_addr := rExpired.public_addr,
                                local_addr := rExpired.local_addr },
            timestamp := 1000 }])) ∧
    add_connect_request (initRegistry 300) 1000 "r" "t" = (none, initRegistry 300) :=
  ⟨(c4_connect_request_not_found regRT 1000 "r" "t").2.2.2 tFresh rExpired rfl
      (by norm_num [tFresh, regRT]) rfl,
   (c4_connect_request_not_found (initRegistry 300) 1000 "r" "t").1 rfl⟩

/-- C8: registering a device and looking it up within the expiry window
returns its address record; looking it up after the window reports absence
and removes the entry from the device table. -/
theorem c8_register_lookup (reg : DeviceRegistry) (t now : Int) (d : String)
    (pub : Addr) (loc : Option Addr) :
    (now - t ≤ reg.expiration_seconds →
      lookup (register reg t d pub loc) now d =
        (some { device_id := d, public_addr := pub, local_addr := loc },
         register reg t d pub loc)) ∧
    (now - t > reg.expiration_seconds →
      (lookup (register reg t d pub loc) now d).1 = none ∧
      lookupA (lookup (register reg t d pub loc) now d).2.devices d = none) := by
  have hfind : lookupA (register reg t d pub loc).devices d = some
      { device_id := d, public_addr := pub, local_addr := loc, last_seen := t,
        registered_at := match lookupA reg.devices d with
          | some x => x.registered_at
          | none => t } := lookupA_setA_self _ _ _
  have hexp : (register reg t d pub loc).expiration_seconds = reg.expiration_seconds := rfl
  constructor
  · intro h
    simp only [lookup, hfind, hexp]
    rw [if_neg (by omega)]
    rfl
  · intro h
    simp only [lookup, hfind, hexp]
    rw [if_pos (by omega)]
    exact ⟨rfl, lookupA_eraseA_self _ _⟩

/-- Witness for C8: a device registered at time 10 is found at time 100 and
gone — including from the table — at time 500. -/
theorem c8_witness :
    lookup (register (initRegistry 300) 10 "d" ("ip", 7) none) 100 "d" =
      (some { device_id := "d", public_addr := ("ip", 7), local_addr := none },
       register (initRegistry 300) 10 "d" ("ip", 7) none) ∧
    (lookup (register (initRegistry 300) 10 "d" ("ip", 7) none) 500 "d").1 = none ∧
    lookupA (lookup (register (initRegistry 300) 10 "d" ("ip", 7) none) 500 "d").2.devices
      "d" = none :=
  ⟨(c8_register_lookup (initRegistry 300) 10 100 "d" ("ip", 7) none).1
     (by norm_num [initRegistry]),
   (c8_register_lookup (initRegistry 300) 10 500 "d" ("ip", 7) none).2
     (by norm_num [initRegistry])⟩

/-- C9: `add_peer` on an existing peer rewrites the row with the new fields
but keeps the stored `first_seen`; on a new peer it inserts a row whose
`first_seen` is the current time; rows of other peers are untouched. -/
theorem c9_add_peer_first_seen (peers : List (String × PeerRow)) (now : Int)
    (peer_id : String) (public_key : List Nat) (display_name : Option String)
    (trust_level : Int) :
    (∀ row, lookupA peers peer_id = some row →
      lookupA (add_peer peers now peer_id public_key display_name trust_level) peer_id =
        some { peer_id := peer_id, display_name := display_name,
               public_key := public_key, first_seen := row.first_seen,
               last_seen := now, trust_level := trust_level }) ∧
    (lookupA peers peer_id = none →
      lookupA (add_peer peers now peer_id public_key display_name trust_level) peer_id =
        some { peer_id := peer_id, display_name := display_name,
               public_key := public_key, first_seen := now,
               last_seen := now, trust_level := trust_level }) ∧
    (∀ q, q ≠ peer_id →
      lookupA (add_peer peers now peer_id public_key display_name trust_level) q =
        lookupA peers q) := by
  refine ⟨?_, ?_, ?_⟩
  · intro row h
    simp only [add_peer, h]
    exact lookupA_setA_self _ _ _
  · intro h
    simp only [add_peer, h]
    exact lookupA_setA_self _ _ _
  · intro q hq
    simp only [add_peer]
    exact lookupA_setA_ne _ _ (fun e => hq e.symm)

/-- Witness for C9: adding the same peer twice keeps the first `first_seen`,
the first add stamps it with the then-current time, and another key is
unaffected. -/
theorem c9_witness :
    lookupA (add_peer [] 5 "p" [1] none 0) "p" =
      some { peer_id := "p", display_name := none, public_key := [1],
             first_seen := 5, last_seen := 5, trust_level := 0 } ∧
    lookupA (add_peer (add_peer [] 5 "p" [1] none 0) 9 "p" [2] (some "n") 1) "p" =
      some { peer_id := "p", display_name := some "n", public_key := [2],
             first_seen := 5, last_seen := 9, trust_level := 1 } ∧
    lookupA (add_peer (add_peer [] 5 "p" [1] none 0) 9 "q" [2] none 0) "p" =
      lookupA (add_peer [] 5 "p" [1] none 0) "p" :=
  ⟨(c9_add_peer_first_seen [] 5 "p" [1] none 0).2.1 rfl,
   (c9_add_peer_first_seen (add_peer [] 5 "p" [1] none 0) 9 "p" [2] (some "n") 1).1
     { peer_id := "p", display_name := none, public_key := [1],
       first_seen := 5, last_seen := 5, trust_level := 0 } rfl,
   (c9_add_peer_first_seen (add_peer [] 5 "p" [1] none 0) 9 "q" [2] none 0).2.2 "p"
     (by decide)⟩

/-! ### C7: the per-pair uniqueness invariant of pending connect requests -/

theorem lookup_connect_requests (reg : DeviceRegistry) (now : Int) (d : String) :
    (lookup reg now d).2.connect_requests = reg.connect_requests := by
  unfold lookup
  split
  · split <;> rfl
  · rfl

theorem heartbeat_connect_requests (reg : DeviceRegistry) (now : Int) (d : String) :
    (heartbeat reg now d).2.connect_requests = reg.connect_requests := by
  unfold heartbeat
  split <;> rfl

theorem unregister_connect_requests (reg : DeviceRegistry) (d : String) :
    (unregister reg d).2.connect_requests = reg.connect_requests := by
  unfold unregister
  split <;> rfl

/-- The stored list of any target in a registry satisfying the invariant
mentions each requester at most once, also through `getD`. -/
theorem requesterOnce_getD {reg : DeviceRegistry} (h : requestsDistinct reg)
    (d : String) : requesterOnce ((lookupA reg.connect_requests d).getD []) := by
  rcases hfind : lookupA reg.connect_requests d with _ | l
  · simp [requesterOnce]
  · rw [Option.getD_some]
    exact h (d, l) (lookupA_mem hfind)

/-- Appending a request for `rid` to a list from which `rid` was filtered
keeps requesters pairwise distinct. -/
theorem requesterOnce_replace {l : List ConnectRequest} (h : requesterOnce l)
    (rid : String) (info : DeviceInfo) (now : Int) :
    requesterOnce ((l.filter (fun x => x.requester_id ≠ rid)) ++
      [{ requester_id := rid, requester_info := info, timestamp := now }]) := by
  refine List.pairwise_append.2 ⟨(List.Pairwise.filter _) h, ?_, ?_⟩
  · simp [requesterOnce]
  · intro a ha b hb
    rw [List.mem_singleton] at hb
    subst hb
    have := List.of_mem_filter ha
    simpa using this

/-- Every registry operation preserves the per-pair uniqueness invariant. -/
theorem requestsDistinct_applyOp {reg : DeviceRegistry} (op : RegistryOp)
    (h : requestsDistinct reg) : requestsDistinct (applyOp reg op) := by
  cases op with
  | register now d pub loc =>
    intro p hp
    exact h p hp
  | lookup now d =>
    intro p hp
    simp only [applyOp] at hp
    rw [lookup_connect_requests] at hp
    exact h p hp
  | heartbeat now d =>
    intro p hp
    simp only [applyOp] at hp
    rw [heartbeat_connect_requests] at hp
    exact h p hp
  | unregister d =>
    intro p hp
    simp only [applyOp] at hp
    rw [unregister_connect_requests] at hp
    exact h p hp
  | addConnectRequest now rid tid =>
    intro p hp
    rcases hfindT : lookupA reg.devices tid with _ | target
    · simp only [applyOp, add_connect_request, hfindT] at hp
      exact h p hp
    · by_cases hexp : now - target.last_seen > reg.expiration_seconds
      · simp only [applyOp, add_connect_request, hfindT, if_pos hexp] at hp
        exact h p hp
      · rcases hfindR : lookupA reg.devices rid with _ | requester
        · simp only [applyOp, add_connect_request, hfindT, if_neg hexp, hfindR] at hp
          exact h p hp
        · simp only [applyOp, add_connect_request, hfindT, if_neg hexp, hfindR] at hp
          rcases mem_setA hp with rfl | hp'
          · exact requesterOnce_replace (requesterOnce_getD h tid) rid _ now
          · exact h p hp'
  | getConnectRequests now d =>
    intro p hp
    simp only [applyOp, get_connect_requests] at hp
    by_cases hemp : (((lookupA reg.connect_requests d).getD []).filter
        (fun r => now - r.timestamp < reg.request_expiration)).isEmpty
    · rw [if_pos hemp] at hp
      exact h p (List.mem_of_mem_filter hp)
    · rw [if_neg hemp] at hp
      rcases mem_setA hp with rfl | hp'
      · exact (List.Pairwise.filter _) (requesterOnce_getD h d)
      · exact h p hp'
  | clearConnectRequest tid rid =>
    intro p hp
    rcases hfind : lookupA reg.connect_requests tid with _ | lst
    · simp only [applyOp, clear_connect_request, hfind] at hp
      exact h p hp
    · have hlst : requesterOnce lst := h (tid, lst) (lookupA_mem hfind)
      simp only [applyOp, clear_connect_request, hfind] at hp
      by_cases hemp : (lst.filter (fun r => r.requester_id ≠ rid)).isEmpty
      · rw [if_pos hemp] at hp
        exact h p (List.mem_of_mem_filter hp)
      · rw [if_neg hemp] at hp
        rcases mem_setA hp with rfl | hp'
        · exact (List.Pairwise.filter _) hlst
        · exact h p hp'
  | cleanup now =>
    intro p hp
    simp only [applyOp, cleanup] at hp
    have hp1 := List.mem_of_mem_filter hp
    rw [List.mem_map] at hp1
    obtain ⟨q, hq, rfl⟩ := hp1
    exact (List.Pairwise.filter _) (h q hq)

/-- The invariant holds in every reachable registry state. -/
theorem requestsDistinct_reachable {reg : DeviceRegistry} (h : Reachable reg) :
    requestsDistinct reg := by
  induction h with
  | start e =>
    intro p hp
    simp [initRegistry] at hp
  | step op hreg ih => exact requestsDistinct_applyOp op ih

/-- C7: in every reachable registry state each target's pending list holds at
most one request per requester, and a successful `add_connect_request`
replaces the requester's older request by one timestamped with the current
time. -/
theorem c7_single_request_per_pair :
    (∀ reg : DeviceRegistry, Reachable reg → requestsDistinct reg) ∧
    (∀ (reg : DeviceRegistry) (now : Int) (rid tid : String) (t r : DeviceRecord),
      lookupA reg.devices tid = some t →
      ¬ now - t.last_seen > reg.expiration_seconds →
      lookupA reg.devices rid = some r →
      lookupA (add_connect_request reg now rid tid).2.connect_requests tid =
        some ((((lookupA reg.connect_requests tid).getD []).filter
            (fun x => x.requester_id ≠ rid)) ++
          [{ requester_id := rid,
             requester_info := { device_id := rid, public_addr := r.public_addr,
                                 local_addr := r.local_addr },
             timestamp := now }])) := by
  constructor
  · exact fun reg h => requestsDistinct_reachable h
  · intro reg now rid tid t r ht hexp hr
    simp only [add_connect_request, ht, if_neg hexp, hr]
    exact lookupA_setA_self _ _ _

/-- Witness for C7: the invariant evaluated at a fresh registry, and the
replacement equation evaluated on the concrete two-device registry. -/
theorem c7_witness :
    requestsDistinct (initRegistry 300) ∧
    lookupA (add_connect_request regRT 1000 "r" "t").2.connect_requests "t" =
      some ((((lookupA regRT.connect_requests "t").getD []).filter
          (fun x => x.requester_id ≠ "r")) ++
        [{ requester_id := "r",
           requester_info := { device_id := "r", public_addr := rExpired.public_addr,
                               local_addr := rExpired.local_addr },
           timestamp := 1000 }]) :=
  ⟨c7_single_request_per_pair.1 (initRegistry 300) (Reachable.start 300),
   c7_single_request_per_pair.2 regRT 1000 "r" "t" tFresh rExpired rfl
     (by norm_num [tFresh, regRT]) rfl⟩

end Ghostline
